import Mathlib

/-!
Verification of the scenario computation engine of an HVAC analytics dashboard
(source file `app.py`).

The engine (`compute_scenarios`) receives the normalized reading table and
produces, for two counterfactual shut-off policies, per-reading scenario
energies, per-day aggregates and total/mean savings statistics.  We embed the
table as a `List Reading`, timestamps and calendar dates as integers (time is
measured in minutes, so the source's `pd.Timedelta(hours=1)` is the constant
60), and real-valued columns as rationals.  The pandas day loop of scenario 1
mutates an energy column in place; we model the scenario table as a list of
pairs of the (immutable) reading and the current value of its scenario-energy
cell, and the loop as a fold over the distinct dates.
-/

/-- One row of the normalized table produced by `load_data`: the columns that
the dashboard reads.  `timestamp` and `date` are integers (minutes,
respectively an arbitrary encoding of the calendar date); `on_off`,
`is_business_hours` and `is_weekend` are the integer-coerced 0/1 flag
columns. -/
structure Reading where
  timestamp : ℤ
  date : ℤ
  energy_5min_real_kWh : ℚ
  on_off : ℤ
  is_business_hours : ℤ
  is_weekend : ℤ
  active_power_real : ℚ
  active_power_pred : ℚ
  outside_temp : ℚ
deriving DecidableEq

/-- Maximum of a list of integers, as `Series.max()`: `none` on an empty
series. -/
def listMax : List ℤ → Option ℤ
  | [] => none
  | t :: ts =>
    match listMax ts with
    | none => some t
    | some m => some (max t m)

/-- The timestamps selected by `s1.loc[mask_on, "timestamp"]` for the day
group of date `d`: timestamps of the readings of date `d` whose `on_off`
is 1. -/
def onTimes (d : ℤ) (l : List Reading) : List ℤ :=
  (l.filter (fun x => decide (x.date = d ∧ x.on_off = 1))).map
    (fun x => x.timestamp)

/-- One iteration of the scenario-1 day loop (`for current_date, idx in
s1.groupby("date").groups.items()`): if the day group of `d` has no reading
with `on_off == 1` the table is left untouched (`continue`); otherwise
`last_time` is the maximum timestamp among them, `cutoff = last_time - 1h`,
and the energy cells of the rows of that day with `on_off == 1` and
`cutoff < timestamp <= last_time` are set to 0.  The reading component of a
row (the other columns of the frame) is never modified. -/
def applyDay (rows : List (Reading × ℚ)) (d : ℤ) : List (Reading × ℚ) :=
  match listMax (onTimes d (rows.map Prod.fst)) with
  | none => rows
  | some last_time =>
    rows.map (fun p =>
      if p.1.date = d ∧ p.1.on_off = 1 ∧
          last_time - 60 < p.1.timestamp ∧ p.1.timestamp ≤ last_time
      then (p.1, 0) else p)

/-- The distinct dates of the table, one per `groupby("date")` group.
(`groupby` enumerates the groups sorted by key; we keep them in first
occurrence order, which is immaterial to every property proved below.) -/
def distinctDates (l : List Reading) : List ℤ :=
  (l.map (fun r => r.date)).dedup

/-- Scenario 1 table: the column `energy_s1_kWh` is initialized with the
baseline energy and the day loop then zeroes the final on-hour of each day. -/
def scenario1 (readings : List Reading) : List (Reading × ℚ) :=
  (distinctDates readings).foldl applyDay
    (readings.map (fun r => (r, r.energy_5min_real_kWh)))

/-- Scenario 2 table: `energy_s2_kWh` starts as the baseline energy and is
zeroed exactly where `is_business_hours == 0`. -/
def scenario2 (readings : List Reading) : List (Reading × ℚ) :=
  readings.map (fun r =>
    (r, if r.is_business_hours = 0 then 0 else r.energy_5min_real_kWh))

/-- One row of a per-day aggregate (`groupby("date").agg(...)` followed by
`economia_kWh = energy_base_kWh - energy_s*_kWh`). -/
structure DailyRow where
  date : ℤ
  energy_base_kWh : ℚ
  energy_scen_kWh : ℚ
  economia_kWh : ℚ
deriving DecidableEq

/-- The daily aggregate of a scenario table: one row per distinct date
carrying the summed baseline energy, the summed scenario energy and their
difference. -/
def dailyAgg (rows : List (Reading × ℚ)) : List DailyRow :=
  ((rows.map (fun p => p.1.date)).dedup).map (fun d =>
    { date := d
      energy_base_kWh :=
        ((rows.filter (fun p => decide (p.1.date = d))).map
          (fun p => p.1.energy_5min_real_kWh)).sum
      energy_scen_kWh :=
        ((rows.filter (fun p => decide (p.1.date = d))).map
          (fun p => p.2)).sum
      economia_kWh :=
        ((rows.filter (fun p => decide (p.1.date = d))).map
          (fun p => p.1.energy_5min_real_kWh)).sum -
        ((rows.filter (fun p => decide (p.1.date = d))).map
          (fun p => p.2)).sum })

/-- pandas `Series.mean()`: sum divided by length; on an empty series the
result is NaN, which we model as `none`. -/
def seriesMean : List ℚ → Option ℚ
  | [] => none
  | l => some (l.sum / (l.length : ℚ))

/-- The record returned by `compute_scenarios`. -/
structure ScenarioStats where
  total_base_kWh : ℚ
  s1_total_kWh : ℚ
  s1_economia_kWh : ℚ
  s1_economia_media_dia : Option ℚ
  s1_daily : List DailyRow
  s2_total_kWh : ℚ
  s2_economia_kWh : ℚ
  s2_economia_media_dia : Option ℚ
  s2_daily : List DailyRow
deriving DecidableEq

/-- The scenario engine: totals of the baseline and of both scenario tables,
total savings as their differences, the two daily aggregates and the mean of
each daily savings column. -/
def compute_scenarios (readings : List Reading) : ScenarioStats :=
  { total_base_kWh := (readings.map (fun r => r.energy_5min_real_kWh)).sum
    s1_total_kWh := ((scenario1 readings).map (fun p => p.2)).sum
    s1_economia_kWh :=
      (readings.map (fun r => r.energy_5min_real_kWh)).sum -
        ((scenario1 readings).map (fun p => p.2)).sum
    s1_economia_media_dia :=
      seriesMean ((dailyAgg (scenario1 readings)).map (fun row => row.economia_kWh))
    s1_daily := dailyAgg (scenario1 readings)
    s2_total_kWh := ((scenario2 readings).map (fun p => p.2)).sum
    s2_economia_kWh :=
      (readings.map (fun r => r.energy_5min_real_kWh)).sum -
        ((scenario2 readings).map (fun p => p.2)).sum
    s2_economia_media_dia :=
      seriesMean ((dailyAgg (scenario2 readings)).map (fun row => row.economia_kWh))
    s2_daily := dailyAgg (scenario2 readings) }

/-- Percentage reduction displayed for scenario 1:
`(s1_econ / total_base * 100) if total_base > 0 else 0.0`. -/
def s1_pct (readings : List Reading) : ℚ :=
  if (compute_scenarios readings).total_base_kWh > 0 then
    (compute_scenarios readings).s1_economia_kWh /
      (compute_scenarios readings).total_base_kWh * 100
  else 0

/-- Percentage reduction displayed for scenario 2:
`(s2_econ / total_base * 100) if total_base > 0 else 0.0`. -/
def s2_pct (readings : List Reading) : ℚ :=
  if (compute_scenarios readings).total_base_kWh > 0 then
    (compute_scenarios readings).s2_economia_kWh /
      (compute_scenarios readings).total_base_kWh * 100
  else 0

/-- Truncation of a rational toward zero: the value conversion performed by
numpy/pandas `astype(int)` on a numeric column. -/
def ratTrunc (q : ℚ) : ℤ := q.num.tdiv (q.den : ℤ)

/-- The two optional flag columns of the raw CSV as seen by `load_data`:
`none` models an absent column. -/
structure RawFlags where
  is_business_hours : Option (List ℚ)
  is_weekend : Option (List ℚ)
deriving DecidableEq

/-- The guarded coercion `if col in base.columns: base[col] = base[col].astype(int)`
applied to one optional column: an absent column is skipped (no error), a
present one is coerced elementwise to integers. -/
def coerceFlagColumn : Option (List ℚ) → Option (List ℤ)
  | none => none
  | some col => some (col.map ratTrunc)

/-- The flag-normalization stage of `load_data` (lines guarding
`is_business_hours` and `is_weekend`). -/
def normalizeFlags (raw : RawFlags) : Option (List ℤ) × Option (List ℤ) :=
  (coerceFlagColumn raw.is_business_hours, coerceFlagColumn raw.is_weekend)

/-- Whether the scenario-1 loop zeroes a given reading of the table: its day
has at least one `on_off = 1` reading and this reading is itself on and lies
in the final hour ending at the day's last on-time. -/
def zeroedS1 (readings : List Reading) (r : Reading) : Bool :=
  match listMax (onTimes r.date readings) with
  | none => false
  | some last_time =>
    decide (r.on_off = 1) && decide (last_time - 60 < r.timestamp) &&
      decide (r.timestamp ≤ last_time)

/-- A sample reading of the synthetic test day (date 0), with the given
timestamp (minutes), `on_off`, `is_business_hours` and baseline energy. -/
def demoReading (ts : ℤ) (oo : ℤ) (bh : ℤ) (e : ℚ) : Reading :=
  { timestamp := ts, date := 0, energy_5min_real_kWh := e, on_off := oo,
    is_business_hours := bh, is_weekend := 0, active_power_real := 3,
    active_power_pred := 3, outside_temp := 25 }

/-- The synthetic boundary day of the test plan: `on_off = 1` readings every
5 minutes from 09:00 (minute 540) to 17:00 (minute 1020), 1 kWh each. -/
def demoDay : List Reading :=
  (List.range 97).map (fun k => demoReading (540 + 5 * (k : ℤ)) 1 1 1)

/-- Two on-readings half an hour apart, both inside the final hour of their
day. -/
def demoPair : List Reading :=
  [demoReading 600 1 1 1, demoReading 630 1 1 1]

/-- One business-hours reading and one off-hours reading, 1 kWh each. -/
def demoMixed : List Reading :=
  [demoReading 600 1 1 1, demoReading 1300 0 0 1]

/-- A single reading that is never on. -/
def demoOff : List Reading :=
  [demoReading 600 0 1 1]

/-- A single reading with zero baseline energy. -/
def demoZero : List Reading :=
  [demoReading 600 1 1 0]

/-- A raw table with a numeric `is_business_hours` column and no `is_weekend`
column. -/
def demoRaw : RawFlags :=
  { is_business_hours := some [1, 0], is_weekend := none }

theorem listMax_eq_none_iff (l : List ℤ) : listMax l = none ↔ l = [] := by
  cases l with
  | nil => simp [listMax]
  | cons t ts =>
    cases h : listMax ts <;> simp [listMax, h]

theorem listMax_mem {l : List ℤ} {m : ℤ} (h : listMax l = some m) : m ∈ l := by
  induction l with
  | nil => simp [listMax] at h
  | cons t ts ih =>
    cases h2 : listMax ts with
    | none =>
      rw [listMax, h2] at h
      simp at h
      simp [h]
    | some m2 =>
      rw [listMax, h2] at h
      simp at h
      rcases max_choice t m2 with h3 | h3
      · rw [h3] at h
        simp [h]
      · rw [h3] at h
        subst h
        exact List.mem_cons_of_mem _ (ih h2)

theorem le_listMax {l : List ℤ} :
    ∀ {m : ℤ}, listMax l = some m → ∀ t ∈ l, t ≤ m := by
  induction l with
  | nil => intro m h; simp [listMax] at h
  | cons t ts ih =>
    intro m h x hx
    cases h2 : listMax ts with
    | none =>
      have hts := (listMax_eq_none_iff ts).mp h2
      subst hts
      rw [listMax] at h
      simp [listMax] at h
      rcases List.mem_cons.mp hx with h3 | h3
      · omega
      · simp at h3
    | some m2 =>
      rw [listMax, h2] at h
      simp at h
      subst h
      rcases List.mem_cons.mp hx with h3 | h3
      · exact h3 ▸ le_max_left t m2
      · exact le_trans (ih h2 x h3) (le_max_right t m2)

theorem listMax_eq_some_of {l : List ℤ} {m : ℤ} (hmem : m ∈ l)
    (hub : ∀ t ∈ l, t ≤ m) : listMax l = some m := by
  cases h : listMax l with
  | none =>
    rw [listMax_eq_none_iff] at h
    subst h
    simp at hmem
  | some m2 =>
    have h1 : m2 ≤ m := hub m2 (listMax_mem h)
    have h2 : m ≤ m2 := le_listMax h m hmem
    rw [le_antisymm h1 h2]

theorem mem_onTimes {d : ℤ} {l : List Reading} {t : ℤ} :
    t ∈ onTimes d l ↔ ∃ x ∈ l, x.date = d ∧ x.on_off = 1 ∧ x.timestamp = t := by
  simp only [onTimes, List.mem_map, List.mem_filter, decide_eq_true_eq]
  constructor
  · rintro ⟨x, ⟨hx, hd, ho⟩, ht⟩
    exact ⟨x, hx, hd, ho, ht⟩
  · rintro ⟨x, hx, hd, ho, ht⟩
    exact ⟨x, ⟨hx, hd, ho⟩, ht⟩

theorem onTimes_eq_nil_iff {d : ℤ} {l : List Reading} :
    onTimes d l = [] ↔ ∀ x ∈ l, x.date = d → x.on_off ≠ 1 := by
  simp only [onTimes, List.map_eq_nil_iff, List.filter_eq_nil_iff,
    decide_eq_true_eq]
  constructor
  · intro h x hx hd ho
    exact h x hx ⟨hd, ho⟩
  · rintro h x hx ⟨hd, ho⟩
    exact h x hx hd ho

theorem mem_of_getElemOpt {α : Type} {l : List α} {i : ℕ} {a : α}
    (h : l[i]? = some a) : a ∈ l := by
  obtain ⟨hlt, heq⟩ := List.getElem?_eq_some.mp h
  exact heq ▸ List.getElem_mem hlt

theorem applyDay_map_fst (rows : List (Reading × ℚ)) (d : ℤ) :
    (applyDay rows d).map Prod.fst = rows.map Prod.fst := by
  unfold applyDay
  cases listMax (onTimes d (rows.map Prod.fst)) with
  | none => rfl
  | some last_time =>
    rw [List.map_map]
    apply List.map_congr_left
    intro p hp
    simp only [Function.comp]
    split <;> rfl

theorem applyDay_getElemOpt (readings : List Reading)
    {rows : List (Reading × ℚ)} (hfst : rows.map Prod.fst = readings)
    (d : ℤ) (i : ℕ) :
    (applyDay rows d)[i]? =
      rows[i]?.map (fun p =>
        if p.1.date = d ∧ zeroedS1 readings p.1 then (p.1, (0 : ℚ)) else p) := by
  unfold applyDay
  rw [hfst]
  cases h : listMax (onTimes d readings) with
  | none =>
    cases hq : rows[i]? with
    | none => simp
    | some p =>
      rw [Option.map_some']
      by_cases hd : p.1.date = d
      · have hz : zeroedS1 readings p.1 = false := by
          unfold zeroedS1
          rw [hd, h]
        rw [if_neg]
        intro hcon
        rw [hz] at hcon
        exact Bool.false_ne_true hcon.2
      · rw [if_neg (fun hcon => hd hcon.1)]
  | some last_time =>
    rw [List.getElem?_map]
    cases hq : rows[i]? with
    | none => rfl
    | some p =>
      rw [Option.map_some', Option.map_some']
      by_cases hd : p.1.date = d
      · have hz : zeroedS1 readings p.1 =
            (decide (p.1.on_off = 1) && decide (last_time - 60 < p.1.timestamp) &&
              decide (p.1.timestamp ≤ last_time)) := by
          unfold zeroedS1
          rw [hd, h]
        by_cases hc : p.1.on_off = 1 ∧ last_time - 60 < p.1.timestamp ∧
            p.1.timestamp ≤ last_time
        · rw [if_pos ⟨hd, hc.1, hc.2.1, hc.2.2⟩, if_pos]
          refine ⟨hd, ?_⟩
          rw [hz]
          simp [hc.1, hc.2.1, hc.2.2]
        · rw [if_neg, if_neg]
          · intro hcon
            apply hc
            have h2 := hcon.2
            rw [hz] at h2
            simp only [Bool.and_eq_true, decide_eq_true_eq] at h2
            exact ⟨h2.1.1, h2.1.2, h2.2⟩
          · exact fun hcon => hc ⟨hcon.2.1, hcon.2.2.1, hcon.2.2.2⟩
      · rw [if_neg (fun hcon => hd hcon.1), if_neg (fun hcon => hd hcon.1)]

theorem foldl_applyDay_map_fst (L : List ℤ) :
    ∀ rows : List (Reading × ℚ),
      (L.foldl applyDay rows).map Prod.fst = rows.map Prod.fst := by
  induction L with
  | nil => intro rows; rfl
  | cons d L2 ih =>
    intro rows
    rw [List.foldl_cons, ih, applyDay_map_fst]

theorem foldl_applyDay_getElemOpt (readings : List Reading) (L : List ℤ) :
    ∀ (rows : List (Reading × ℚ)), rows.map Prod.fst = readings →
      ∀ i : ℕ, (L.foldl applyDay rows)[i]? =
        rows[i]?.map (fun p =>
          if p.1.date ∈ L ∧ zeroedS1 readings p.1 then (p.1, (0 : ℚ)) else p) := by
  induction L with
  | nil =>
    intro rows hfst i
    simp
  | cons d L2 ih =>
    intro rows hfst i
    rw [List.foldl_cons]
    have hfst2 : (applyDay rows d).map Prod.fst = readings := by
      rw [applyDay_map_fst, hfst]
    rw [ih (applyDay rows d) hfst2 i, applyDay_getElemOpt readings hfst d i]
    cases hq : rows[i]? with
    | none => rfl
    | some p =>
      rw [Option.map_some', Option.map_some', Option.map_some']
      by_cases hz : zeroedS1 readings p.1
      · by_cases hd : p.1.date = d
        · have hg1 : (if p.1.date = d ∧ zeroedS1 readings p.1 then (p.1, (0 : ℚ))
              else p) = (p.1, (0 : ℚ)) := if_pos ⟨hd, hz⟩
          rw [hg1]
          have hdm : p.1.date ∈ d :: L2 := by
            rw [hd]; exact List.mem_cons_self d L2
          dsimp only
          rw [ite_self, if_pos ⟨hdm, hz⟩]
        · have hg1 : (if p.1.date = d ∧ zeroedS1 readings p.1 then (p.1, (0 : ℚ))
              else p) = p := if_neg (fun hcon => hd hcon.1)
          rw [hg1]
          by_cases hL : p.1.date ∈ L2
          · rw [if_pos ⟨hL, hz⟩, if_pos ⟨List.mem_cons_of_mem d hL, hz⟩]
          · rw [if_neg (fun hcon => hL hcon.1), if_neg]
            intro hcon
            rcases List.mem_cons.mp hcon.1 with h3 | h3
            · exact hd h3
            · exact hL h3
      · have hg1 : (if p.1.date = d ∧ zeroedS1 readings p.1 then (p.1, (0 : ℚ))
            else p) = p := if_neg (fun hcon => hz hcon.2)
        rw [hg1, if_neg (fun hcon => hz hcon.2), if_neg (fun hcon => hz hcon.2)]

theorem map_fst_pair (readings : List Reading) (g : Reading → ℚ) :
    (readings.map (fun r => (r, g r))).map Prod.fst = readings := by
  rw [List.map_map]
  have h : (Prod.fst ∘ fun r => (r, g r)) = id := rfl
  rw [h, List.map_id]

theorem scenario1_map_fst (readings : List Reading) :
    (scenario1 readings).map Prod.fst = readings := by
  rw [scenario1, foldl_applyDay_map_fst, map_fst_pair]

theorem scenario2_map_fst (readings : List Reading) :
    (scenario2 readings).map Prod.fst = readings := by
  rw [scenario2]
  exact map_fst_pair readings
    (fun r => if r.is_business_hours = 0 then 0 else r.energy_5min_real_kWh)

theorem scenario1_eq_map (readings : List Reading) :
    scenario1 readings = readings.map (fun r =>
      (r, if zeroedS1 readings r then (0 : ℚ) else r.energy_5min_real_kWh)) := by
  apply List.ext_getElem?
  intro i
  rw [scenario1, foldl_applyDay_getElemOpt readings (distinctDates readings)
    (readings.map (fun r => (r, r.energy_5min_real_kWh)))
    (map_fst_pair readings (fun r => r.energy_5min_real_kWh)) i]
  rw [List.getElem?_map, List.getElem?_map]
  cases hq : readings[i]? with
  | none => rfl
  | some r =>
    rw [Option.map_some', Option.map_some', Option.map_some']
    have hmem : r ∈ readings := mem_of_getElemOpt hq
    have hdd : r.date ∈ distinctDates readings := by
      unfold distinctDates
      rw [List.mem_dedup]
      exact List.mem_map.mpr ⟨r, hmem, rfl⟩
    by_cases hz : zeroedS1 readings r
    · rw [if_pos ⟨hdd, hz⟩, if_pos hz]
    · rw [if_neg (fun hcon => hz hcon.2), if_neg hz]

theorem sum_map_sub {α : Type} (l : List α) (f g : α → ℚ) :
    (l.map (fun x => f x - g x)).sum = (l.map f).sum - (l.map g).sum := by
  induction l with
  | nil => simp
  | cons a t ih =>
    simp only [List.map_cons, List.sum_cons, ih]
    ring

theorem sum_map_add {α : Type} (l : List α) (f g : α → ℚ) :
    (l.map (fun x => f x + g x)).sum = (l.map f).sum + (l.map g).sum := by
  induction l with
  | nil => simp
  | cons a t ih =>
    simp only [List.map_cons, List.sum_cons, ih]
    ring

theorem sum_map_ite_zero {α : Type} (g : α → ℚ) (a : α) (k : α → ℤ) :
    ∀ ds : List ℤ, k a ∉ ds →
      (ds.map (fun d => if k a = d then g a else 0)).sum = 0 := by
  intro ds
  induction ds with
  | nil => intro h; simp
  | cons d ds2 ih =>
    intro h
    simp only [List.map_cons, List.sum_cons]
    rw [if_neg (fun hcon => h (by rw [hcon]; exact List.mem_cons_self d ds2)),
      ih (fun hcon => h (List.mem_cons_of_mem d hcon)), add_zero]

theorem sum_map_ite_eq {α : Type} (g : α → ℚ) (a : α) (k : α → ℤ) :
    ∀ ds : List ℤ, ds.Nodup → k a ∈ ds →
      (ds.map (fun d => if k a = d then g a else 0)).sum = g a := by
  intro ds
  induction ds with
  | nil => intro _ h; simp at h
  | cons d ds2 ih =>
    intro hnd hmem
    simp only [List.map_cons, List.sum_cons]
    by_cases hd : k a = d
    · rw [if_pos hd, sum_map_ite_zero g a k ds2
        (by rw [hd]; exact (List.nodup_cons.mp hnd).1), add_zero]
    · rw [if_neg hd, ih (List.nodup_cons.mp hnd).2
        (by rcases List.mem_cons.mp hmem with h | h
            · exact absurd h hd
            · exact h), zero_add]

theorem map_sum_cons_split {α : Type} (k : α → ℤ) (g : α → ℚ) (a : α)
    (t : List α) (ds : List ℤ) :
    ds.map (fun d => (((a :: t).filter (fun x => decide (k x = d))).map g).sum) =
      ds.map (fun d => (if k a = d then g a else 0) +
        ((t.filter (fun x => decide (k x = d))).map g).sum) := by
  induction ds with
  | nil => rfl
  | cons d ds2 ih =>
    rw [List.map_cons, List.map_cons, ih]
    congr 1
    rw [List.filter_cons]
    by_cases hd : k a = d
    · rw [if_pos (by simp [hd]), List.map_cons, List.sum_cons, if_pos hd]
    · rw [if_neg (by simp [hd]), if_neg hd, zero_add]

theorem sum_over_groups {α : Type} (k : α → ℤ) (g : α → ℚ) :
    ∀ (l : List α) (ds : List ℤ), ds.Nodup → (∀ x ∈ l, k x ∈ ds) →
      (ds.map (fun d =>
        ((l.filter (fun x => decide (k x = d))).map g).sum)).sum = (l.map g).sum := by
  intro l
  induction l with
  | nil =>
    intro ds _ _
    simp
  | cons a t ih =>
    intro ds hnd hall
    rw [map_sum_cons_split k g a t ds,
      sum_map_add ds (fun d => if k a = d then g a else 0)
        (fun d => ((t.filter (fun x => decide (k x = d))).map g).sum),
      sum_map_ite_eq g a k ds hnd (hall a (List.mem_cons_self a t)),
      ih ds hnd (fun x hx => hall x (List.mem_cons_of_mem a hx)),
      List.map_cons, List.sum_cons]

theorem dailyAgg_map_date (rows : List (Reading × ℚ)) :
    (dailyAgg rows).map (fun row => row.date) =
      (rows.map (fun p => p.1.date)).dedup := by
  rw [dailyAgg, List.map_map]
  conv_rhs => rw [← List.map_id ((rows.map (fun p => p.1.date)).dedup)]
  apply List.map_congr_left
  intro d hd
  rfl

theorem dailyAgg_map_base (rows : List (Reading × ℚ)) :
    (dailyAgg rows).map (fun row => row.energy_base_kWh) =
      ((rows.map (fun p => p.1.date)).dedup).map (fun d =>
        ((rows.filter (fun p => decide (p.1.date = d))).map
          (fun p => p.1.energy_5min_real_kWh)).sum) := by
  rw [dailyAgg, List.map_map]
  apply List.map_congr_left
  intro d hd
  rfl

theorem dailyAgg_map_scen (rows : List (Reading × ℚ)) :
    (dailyAgg rows).map (fun row => row.energy_scen_kWh) =
      ((rows.map (fun p => p.1.date)).dedup).map (fun d =>
        ((rows.filter (fun p => decide (p.1.date = d))).map
          (fun p => p.2)).sum) := by
  rw [dailyAgg, List.map_map]
  apply List.map_congr_left
  intro d hd
  rfl

theorem dailyAgg_map_economia (rows : List (Reading × ℚ)) :
    (dailyAgg rows).map (fun row => row.economia_kWh) =
      ((rows.map (fun p => p.1.date)).dedup).map (fun d =>
        ((rows.filter (fun p => decide (p.1.date = d))).map
          (fun p => p.1.energy_5min_real_kWh)).sum -
        ((rows.filter (fun p => decide (p.1.date = d))).map
          (fun p => p.2)).sum) := by
  rw [dailyAgg, List.map_map]
  apply List.map_congr_left
  intro d hd
  rfl

theorem keys_mem_dedup (rows : List (Reading × ℚ)) :
    ∀ x ∈ rows, x.1.date ∈ (rows.map (fun p => p.1.date)).dedup :=
  fun x hx => List.mem_dedup.mpr (List.mem_map.mpr ⟨x, hx, rfl⟩)

theorem dailyAgg_base_total (rows : List (Reading × ℚ)) :
    ((dailyAgg rows).map (fun row => row.energy_base_kWh)).sum =
      (rows.map (fun p => p.1.energy_5min_real_kWh)).sum := by
  rw [dailyAgg_map_base rows]
  exact sum_over_groups (fun p => p.1.date) (fun p => p.1.energy_5min_real_kWh)
    rows ((rows.map (fun p => p.1.date)).dedup)
    (List.nodup_dedup _) (keys_mem_dedup rows)

theorem dailyAgg_scen_total (rows : List (Reading × ℚ)) :
    ((dailyAgg rows).map (fun row => row.energy_scen_kWh)).sum =
      (rows.map (fun p => p.2)).sum := by
  rw [dailyAgg_map_scen rows]
  exact sum_over_groups (fun p => p.1.date) (fun p => p.2)
    rows ((rows.map (fun p => p.1.date)).dedup)
    (List.nodup_dedup _) (keys_mem_dedup rows)

theorem dailyAgg_econ_total (rows : List (Reading × ℚ)) :
    ((dailyAgg rows).map (fun row => row.economia_kWh)).sum =
      (rows.map (fun p => p.1.energy_5min_real_kWh)).sum -
        (rows.map (fun p => p.2)).sum := by
  rw [dailyAgg_map_economia rows,
    sum_map_sub ((rows.map (fun p => p.1.date)).dedup)
      (fun d => ((rows.filter (fun p => decide (p.1.date = d))).map
        (fun p => p.1.energy_5min_real_kWh)).sum)
      (fun d => ((rows.filter (fun p => decide (p.1.date = d))).map
        (fun p => p.2)).sum),
    sum_over_groups (fun p => p.1.date) (fun p => p.1.energy_5min_real_kWh)
      rows ((rows.map (fun p => p.1.date)).dedup)
      (List.nodup_dedup _) (keys_mem_dedup rows),
    sum_over_groups (fun p => p.1.date) (fun p => p.2)
      rows ((rows.map (fun p => p.1.date)).dedup)
      (List.nodup_dedup _) (keys_mem_dedup rows)]

theorem dailyAgg_econ_nonneg (rows : List (Reading × ℚ))
    (h : ∀ p ∈ rows, p.2 ≤ p.1.energy_5min_real_kWh) :
    ∀ row ∈ dailyAgg rows, 0 ≤ row.economia_kWh := by
  intro row hrow
  rw [dailyAgg] at hrow
  obtain ⟨d, hd, rfl⟩ := List.mem_map.mp hrow
  dsimp only
  rw [sub_nonneg]
  apply List.sum_le_sum
  intro p hp
  exact h p (List.mem_filter.mp hp).1

theorem map_fst_fun {β : Type} (rows : List (Reading × ℚ))
    (readings : List Reading) (hfst : rows.map Prod.fst = readings)
    (g : Reading → β) :
    rows.map (fun p => g p.1) = readings.map g := by
  rw [← hfst, List.map_map]
  rfl

/-- C3: for each scenario, the reported total savings equals total baseline
energy minus total scenario energy, and the per-day savings of the daily
aggregate sum to the reported total savings. -/
theorem conservation (readings : List Reading) :
    (compute_scenarios readings).s1_economia_kWh =
      (compute_scenarios readings).total_base_kWh -
        (compute_scenarios readings).s1_total_kWh ∧
    ((compute_scenarios readings).s1_daily.map (fun row => row.economia_kWh)).sum =
      (compute_scenarios readings).s1_economia_kWh ∧
    (compute_scenarios readings).s2_economia_kWh =
      (compute_scenarios readings).total_base_kWh -
        (compute_scenarios readings).s2_total_kWh ∧
    ((compute_scenarios readings).s2_daily.map (fun row => row.economia_kWh)).sum =
      (compute_scenarios readings).s2_economia_kWh := by
  refine ⟨rfl, ?_, rfl, ?_⟩
  · show ((dailyAgg (scenario1 readings)).map (fun row => row.economia_kWh)).sum =
      (readings.map (fun r => r.energy_5min_real_kWh)).sum -
        ((scenario1 readings).map (fun p => p.2)).sum
    rw [dailyAgg_econ_total (scenario1 readings),
      map_fst_fun (scenario1 readings) readings (scenario1_map_fst readings)
        (fun r => r.energy_5min_real_kWh)]
  · show ((dailyAgg (scenario2 readings)).map (fun row => row.economia_kWh)).sum =
      (readings.map (fun r => r.energy_5min_real_kWh)).sum -
        ((scenario2 readings).map (fun p => p.2)).sum
    rw [dailyAgg_econ_total (scenario2 readings),
      map_fst_fun (scenario2 readings) readings (scenario2_map_fst readings)
        (fun r => r.energy_5min_real_kWh)]

/-- C10: scenario computation never alters the reading columns: the reading
component of every row of both derived scenario tables is exactly the input
sequence, the counterfactual energies living in a separate added column. -/
theorem input_readings_unchanged (readings : List Reading) :
    (scenario1 readings).map Prod.fst = readings ∧
    (scenario2 readings).map Prod.fst = readings :=
  ⟨scenario1_map_fst readings, scenario2_map_fst readings⟩

/-- C7: on an empty reading sequence no day group exists (both daily
aggregates are empty) and the mean daily savings of both scenarios is
undefined (pandas NaN, modeled as `none`). -/
theorem empty_input_no_days :
    distinctDates [] = [] ∧
    (compute_scenarios []).s1_daily = [] ∧
    (compute_scenarios []).s2_daily = [] ∧
    (compute_scenarios []).s1_economia_media_dia = none ∧
    (compute_scenarios []).s2_economia_media_dia = none :=
  ⟨rfl, rfl, rfl, rfl, rfl⟩

/-- C8: when the total baseline energy is 0 the percentage savings of both
scenarios is the defined value 0 (the guarded branch), not a division
fault. -/
theorem zero_baseline_guard (readings : List Reading)
    (h : (compute_scenarios readings).total_base_kWh = 0) :
    s1_pct readings = 0 ∧ s2_pct readings = 0 := by
  have hn : ¬ ((compute_scenarios readings).total_base_kWh > 0) := by
    rw [h]
    exact lt_irrefl 0
  unfold s1_pct s2_pct
  rw [if_neg hn, if_neg hn]
  exact ⟨rfl, rfl⟩

/-- C8 witness: a table whose only reading has zero energy reaches the
guard and both percentages are 0. -/
theorem zero_baseline_guard_witness :
    (compute_scenarios demoZero).total_base_kWh = 0 ∧
    (s1_pct demoZero = 0 ∧ s2_pct demoZero = 0) := by
  have h : (compute_scenarios demoZero).total_base_kWh = 0 := by
    show (demoZero.map (fun r => r.energy_5min_real_kWh)).sum = 0
    simp [demoZero, demoReading]
  exact ⟨h, zero_baseline_guard demoZero h⟩

theorem scenario2_cons (r : Reading) (t : List Reading) :
    scenario2 (r :: t) =
      (r, if r.is_business_hours = 0 then 0 else r.energy_5min_real_kWh) ::
        scenario2 t := rfl

theorem s2_sum_split : ∀ readings : List Reading,
    (∀ r ∈ readings, r.is_business_hours = 0 ∨ r.is_business_hours = 1) →
      ((scenario2 readings).map (fun p => p.2)).sum =
        ((readings.filter (fun r => decide (r.is_business_hours = 1))).map
          (fun r => r.energy_5min_real_kWh)).sum ∧
      (readings.map (fun r => r.energy_5min_real_kWh)).sum =
        ((readings.filter (fun r => decide (r.is_business_hours = 1))).map
          (fun r => r.energy_5min_real_kWh)).sum +
        ((readings.filter (fun r => decide (r.is_business_hours = 0))).map
          (fun r => r.energy_5min_real_kWh)).sum := by
  intro readings
  induction readings with
  | nil =>
    intro _
    constructor <;> simp [scenario2]
  | cons r t ih =>
    intro hflag
    obtain ⟨ih1, ih2⟩ := ih (fun x hx => hflag x (List.mem_cons_of_mem r hx))
    rcases hflag r (List.mem_cons_self r t) with h0 | h1
    · constructor
      · rw [scenario2_cons, List.map_cons, List.sum_cons]
        dsimp only
        rw [if_pos h0, List.filter_cons, if_neg (by simp [h0]), ih1, zero_add]
      · rw [List.map_cons, List.sum_cons, List.filter_cons, List.filter_cons,
          if_neg (by simp [h0]), if_pos (by simp [h0]), List.map_cons,
          List.sum_cons, ih2]
        ring
    · constructor
      · rw [scenario2_cons, List.map_cons, List.sum_cons]
        dsimp only
        rw [if_neg (by rw [h1]; exact one_ne_zero), List.filter_cons,
          if_pos (by simp [h1]), List.map_cons, List.sum_cons, ih1]
      · rw [List.map_cons, List.sum_cons, List.filter_cons, List.filter_cons,
          if_pos (by simp [h1]), if_neg (by simp [h1]), List.map_cons,
          List.sum_cons, ih2]
        ring

/-- C2: scenario 2 zeroes exactly the readings outside business hours
(independently of `on_off`), and under 0/1 flags the scenario total is the
baseline sum over business-hours readings while the total savings is the
baseline sum over off-hours readings. -/
theorem scenario2_rule (readings : List Reading) :
    (∀ p ∈ scenario2 readings,
      (p.1.is_business_hours = 0 → p.2 = 0) ∧
      (p.1.is_business_hours = 1 → p.2 = p.1.energy_5min_real_kWh)) ∧
    ((∀ r ∈ readings, r.is_business_hours = 0 ∨ r.is_business_hours = 1) →
      (compute_scenarios readings).s2_total_kWh =
        ((readings.filter (fun r => decide (r.is_business_hours = 1))).map
          (fun r => r.energy_5min_real_kWh)).sum ∧
      (compute_scenarios readings).s2_economia_kWh =
        ((readings.filter (fun r => decide (r.is_business_hours = 0))).map
          (fun r => r.energy_5min_real_kWh)).sum) := by
  constructor
  · intro p hp
    rw [scenario2] at hp
    obtain ⟨r, hr, rfl⟩ := List.mem_map.mp hp
    dsimp only
    constructor
    · intro hb
      rw [if_pos hb]
    · intro hb
      rw [if_neg (by rw [hb]; exact one_ne_zero)]
  · intro hflag
    obtain ⟨hs, hb⟩ := s2_sum_split readings hflag
    constructor
    · exact hs
    · show (readings.map (fun r => r.energy_5min_real_kWh)).sum -
        ((scenario2 readings).map (fun p => p.2)).sum = _
      rw [hs, hb]
      ring

/-- C2 witness: on a table with one business-hours and one off-hours reading
the flag hypothesis holds and both sum identities follow. -/
theorem scenario2_rule_witness :
    (∀ r ∈ demoMixed, r.is_business_hours = 0 ∨ r.is_business_hours = 1) ∧
    ((compute_scenarios demoMixed).s2_total_kWh =
      ((demoMixed.filter (fun r => decide (r.is_business_hours = 1))).map
        (fun r => r.energy_5min_real_kWh)).sum ∧
    (compute_scenarios demoMixed).s2_economia_kWh =
      ((demoMixed.filter (fun r => decide (r.is_business_hours = 0))).map
        (fun r => r.energy_5min_real_kWh)).sum) :=
  ⟨by decide, (scenario2_rule demoMixed).2 (by decide)⟩

/-- C4: with non-negative baseline energies, every per-reading scenario
energy of both scenarios lies in `[0, baseline]` and every per-day savings
of both daily aggregates is non-negative. -/
theorem monotonic_nonneg (readings : List Reading)
    (h : ∀ r ∈ readings, 0 ≤ r.energy_5min_real_kWh) :
    (∀ p ∈ scenario1 readings, 0 ≤ p.2 ∧ p.2 ≤ p.1.energy_5min_real_kWh) ∧
    (∀ p ∈ scenario2 readings, 0 ≤ p.2 ∧ p.2 ≤ p.1.energy_5min_real_kWh) ∧
    (∀ row ∈ (compute_scenarios readings).s1_daily, 0 ≤ row.economia_kWh) ∧
    (∀ row ∈ (compute_scenarios readings).s2_daily, 0 ≤ row.economia_kWh) := by
  have h1 : ∀ p ∈ scenario1 readings, 0 ≤ p.2 ∧ p.2 ≤ p.1.energy_5min_real_kWh := by
    intro p hp
    rw [scenario1_eq_map] at hp
    obtain ⟨r, hr, rfl⟩ := List.mem_map.mp hp
    dsimp only
    by_cases hz : zeroedS1 readings r
    · rw [if_pos hz]
      exact ⟨le_refl 0, h r hr⟩
    · rw [if_neg hz]
      exact ⟨h r hr, le_refl _⟩
  have h2 : ∀ p ∈ scenario2 readings, 0 ≤ p.2 ∧ p.2 ≤ p.1.energy_5min_real_kWh := by
    intro p hp
    rw [scenario2] at hp
    obtain ⟨r, hr, rfl⟩ := List.mem_map.mp hp
    dsimp only
    by_cases hb : r.is_business_hours = 0
    · rw [if_pos hb]
      exact ⟨le_refl 0, h r hr⟩
    · rw [if_neg hb]
      exact ⟨h r hr, le_refl _⟩
  refine ⟨h1, h2, ?_, ?_⟩
  · exact dailyAgg_econ_nonneg (scenario1 readings) (fun p hp => (h1 p hp).2)
  · exact dailyAgg_econ_nonneg (scenario2 readings) (fun p hp => (h2 p hp).2)

/-- C4 witness: the non-negativity hypothesis holds on a concrete two-reading
table and the bounds follow for it. -/
theorem monotonic_nonneg_witness :
    (∀ r ∈ demoMixed, 0 ≤ r.energy_5min_real_kWh) ∧
    ((∀ p ∈ scenario1 demoMixed, 0 ≤ p.2 ∧ p.2 ≤ p.1.energy_5min_real_kWh) ∧
    (∀ p ∈ scenario2 demoMixed, 0 ≤ p.2 ∧ p.2 ≤ p.1.energy_5min_real_kWh) ∧
    (∀ row ∈ (compute_scenarios demoMixed).s1_daily, 0 ≤ row.economia_kWh) ∧
    (∀ row ∈ (compute_scenarios demoMixed).s2_daily, 0 ≤ row.economia_kWh)) :=
  ⟨by decide, monotonic_nonneg demoMixed (by decide)⟩

/-- C1: per-day rule of scenario 1.  If a reading's day has no `on_off = 1`
reading, its scenario-1 energy is the unchanged baseline.  Otherwise, with
`last_time` the maximum timestamp among the day's on-readings and the cutoff
one hour (60 minutes) before it, a reading that is on and has
`cutoff < timestamp ≤ last_time` gets scenario-1 energy 0, and every other
reading of the day keeps its baseline energy. -/
theorem scenario1_per_day_rule (readings : List Reading) (i : ℕ) (r : Reading)
    (hr : readings[i]? = some r) :
    ((∀ x ∈ readings, x.date = r.date → x.on_off ≠ 1) →
      (scenario1 readings)[i]? = some (r, r.energy_5min_real_kWh)) ∧
    (∀ last_time : ℤ,
      (∃ x ∈ readings, x.date = r.date ∧ x.on_off = 1 ∧ x.timestamp = last_time) →
      (∀ x ∈ readings, x.date = r.date → x.on_off = 1 → x.timestamp ≤ last_time) →
      ((r.on_off = 1 ∧ last_time - 60 < r.timestamp ∧ r.timestamp ≤ last_time →
        (scenario1 readings)[i]? = some (r, 0)) ∧
      (¬ (r.on_off = 1 ∧ last_time - 60 < r.timestamp ∧ r.timestamp ≤ last_time) →
        (scenario1 readings)[i]? = some (r, r.energy_5min_real_kWh)))) := by
  have hget : (scenario1 readings)[i]? =
      some (r, if zeroedS1 readings r then (0 : ℚ) else r.energy_5min_real_kWh) := by
    rw [scenario1_eq_map, List.getElem?_map, hr, Option.map_some']
  constructor
  · intro hno
    have hz : zeroedS1 readings r = false := by
      unfold zeroedS1
      rw [onTimes_eq_nil_iff.mpr hno]
      rfl
    rw [hget, hz]
    rfl
  · intro last_time hex hub
    have hmax : listMax (onTimes r.date readings) = some last_time := by
      apply listMax_eq_some_of
      · obtain ⟨x, hx, hd, ho, ht⟩ := hex
        exact mem_onTimes.mpr ⟨x, hx, hd, ho, ht⟩
      · intro t ht
        obtain ⟨x, hx, hd, ho, ht2⟩ := mem_onTimes.mp ht
        exact ht2 ▸ hub x hx hd ho
    constructor
    · intro hc
      have hz : zeroedS1 readings r = true := by
        unfold zeroedS1
        rw [hmax]
        simp [hc.1, hc.2.1, hc.2.2]
      rw [hget, hz]
      rfl
    · intro hc
      have hz : zeroedS1 readings r = false := by
        unfold zeroedS1
        rw [hmax]
        by_cases h1 : r.on_off = 1
        · by_cases h2 : last_time - 60 < r.timestamp
          · by_cases h3 : r.timestamp ≤ last_time
            · exact absurd ⟨h1, h2, h3⟩ hc
            · simp [h3]
          · simp [h2]
        · simp [h1]
      rw [hget, hz]
      rfl

/-- C1 witness: on a two-reading day whose last on-time is minute 630, the
reading at minute 600 lies within the final hour and is zeroed. -/
theorem scenario1_per_day_rule_witness :
    demoPair[0]? = some (demoReading 600 1 1 1) ∧
    (scenario1 demoPair)[0]? = some (demoReading 600 1 1 1, 0) :=
  ⟨rfl,
    ((scenario1_per_day_rule demoPair 0 (demoReading 600 1 1 1) rfl).2 630
      (by decide) (by decide)).1 (by decide)⟩

/-- C6: the dates of both daily aggregates are exactly the distinct dates of
the input (a date appears in an aggregate exactly when some input reading has
it), and a day with no `on_off = 1` reading still appears in scenario 1's
daily aggregate with savings 0. -/
theorem day_completeness (readings : List Reading) :
    (compute_scenarios readings).s1_daily.map (fun row => row.date) =
      distinctDates readings ∧
    (compute_scenarios readings).s2_daily.map (fun row => row.date) =
      distinctDates readings ∧
    (∀ d : ℤ, d ∈ distinctDates readings ↔ ∃ r ∈ readings, r.date = d) ∧
    (∀ row ∈ (compute_scenarios readings).s1_daily,
      (∀ x ∈ readings, x.date = row.date → x.on_off ≠ 1) →
        row.economia_kWh = 0) := by
  refine ⟨?_, ?_, ?_, ?_⟩
  · show (dailyAgg (scenario1 readings)).map (fun row => row.date) =
      distinctDates readings
    rw [dailyAgg_map_date,
      map_fst_fun (scenario1 readings) readings (scenario1_map_fst readings)
        (fun r => r.date)]
    rfl
  · show (dailyAgg (scenario2 readings)).map (fun row => row.date) =
      distinctDates readings
    rw [dailyAgg_map_date,
      map_fst_fun (scenario2 readings) readings (scenario2_map_fst readings)
        (fun r => r.date)]
    rfl
  · intro d
    unfold distinctDates
    rw [List.mem_dedup, List.mem_map]
  · intro row hrow hno
    have hrow2 : row ∈ dailyAgg (scenario1 readings) := hrow
    rw [dailyAgg] at hrow2
    obtain ⟨d, hd, rfl⟩ := List.mem_map.mp hrow2
    dsimp only at hno ⊢
    rw [sub_eq_zero]
    apply congrArg List.sum
    apply List.map_congr_left
    intro p hp
    obtain ⟨hpmem, hpd⟩ := List.mem_filter.mp hp
    have hpd2 : p.1.date = d := of_decide_eq_true hpd
    rw [scenario1_eq_map] at hpmem
    obtain ⟨x, hx, rfl⟩ := List.mem_map.mp hpmem
    dsimp only at hpd2 ⊢
    have hz : zeroedS1 readings x = false := by
      unfold zeroedS1
      rw [hpd2, onTimes_eq_nil_iff.mpr hno]
      rfl
    rw [hz]
    rfl

/-- C6 witness: a day that is never on still yields a daily row, with zero
savings. -/
theorem day_completeness_witness :
    (∀ x ∈ demoOff, x.on_off ≠ 1) ∧
    ((compute_scenarios demoOff).s1_daily.map (fun row => row.date) =
      distinctDates demoOff) ∧
    (∀ row ∈ (compute_scenarios demoOff).s1_daily, row.economia_kWh = 0) :=
  ⟨by decide, (day_completeness demoOff).1,
    fun row hrow => (day_completeness demoOff).2.2.2 row hrow
      (fun x hx _ => (by decide : ∀ x ∈ demoOff, x.on_off ≠ 1) x hx)⟩

theorem sum_of_zero_one : ∀ l : List ℚ, (∀ x ∈ l, x = 0 ∨ x = 1) →
    l.sum = ((l.filter (fun x => decide (x = 1))).length : ℚ) := by
  intro l
  induction l with
  | nil => intro _; simp
  | cons a t ih =>
    intro h
    rw [List.sum_cons, ih (fun x hx => h x (List.mem_cons_of_mem a hx)),
      List.filter_cons]
    rcases h a (List.mem_cons_self a t) with h0 | h1
    · rw [h0, if_neg (by simp), zero_add]
    · rw [h1, if_pos (by simp), List.length_cons]
      push_cast
      ring

set_option maxRecDepth 40000 in
theorem demoDay_base_sum :
    (demoDay.map (fun r => r.energy_5min_real_kWh)).sum = 97 := by
  rw [sum_of_zero_one _ (by decide),
    show ((demoDay.map (fun r => r.energy_5min_real_kWh)).filter
      (fun x => decide (x = 1))).length = 97 from by decide]
  norm_num

set_option maxRecDepth 40000 in
theorem demoDay_s1_sum :
    ((scenario1 demoDay).map (fun p => p.2)).sum = 85 := by
  rw [sum_of_zero_one _ (by decide),
    show (((scenario1 demoDay).map (fun p => p.2)).filter
      (fun x => decide (x = 1))).length = 85 from by decide]
  norm_num

theorem demoDay_s1_econ :
    (compute_scenarios demoDay).s1_economia_kWh = 12 := by
  show (demoDay.map (fun r => r.energy_5min_real_kWh)).sum -
    ((scenario1 demoDay).map (fun p => p.2)).sum = 12
  rw [demoDay_base_sum, demoDay_s1_sum]
  norm_num

set_option maxRecDepth 40000 in
/-- C5 counterexample: on the synthetic boundary day the code zeroes 12
samples, not 13, and the day's scenario-1 savings is not 13 kWh. -/
theorem scenario1_boundary_cex :
    (compute_scenarios demoDay).s1_economia_kWh ≠ 13 ∧
    ((scenario1 demoDay).filter (fun p => decide (p.2 = 0))).length ≠ 13 := by
  constructor
  · rw [demoDay_s1_econ]
    norm_num
  · decide

set_option maxRecDepth 40000 in
/-- C5 (amended): on the synthetic boundary day the last on-time is 17:00
(minute 1020), exactly the readings strictly after the 16:00 cutoff
(minute 960) are zeroed — 12 samples — and the day's scenario-1 savings is
12 kWh. -/
theorem scenario1_boundary_amended :
    listMax (onTimes 0 demoDay) = some 1020 ∧
    (∀ p ∈ scenario1 demoDay, (p.2 = 0 ↔ 1020 - 60 < p.1.timestamp)) ∧
    ((scenario1 demoDay).filter (fun p => decide (p.2 = 0))).length = 12 ∧
    (compute_scenarios demoDay).s1_economia_kWh = 12 :=
  ⟨by decide, by decide, by decide, demoDay_s1_econ⟩

/-- C9 counterexample: a present flag column is coerced by integer
truncation, so a raw value of 2 is kept as 2, which is not in {0, 1}. -/
theorem flag_coercion_cex :
    coerceFlagColumn (some [(2 : ℚ)]) = some [(2 : ℤ)] ∧
    ¬ ((2 : ℤ) = 0 ∨ (2 : ℤ) = 1) := by
  constructor
  · rfl
  · decide

/-- C9 (amended): a present flag column is coerced elementwise to exact
integers (truncation toward zero) — which yields exactly 0/1 whenever the raw
values are 0 or 1 — and an absent column is skipped without error. -/
theorem flag_coercion_amended (raw : RawFlags) :
    (raw.is_business_hours = none → (normalizeFlags raw).1 = none) ∧
    (raw.is_weekend = none → (normalizeFlags raw).2 = none) ∧
    (∀ col, raw.is_business_hours = some col →
      (normalizeFlags raw).1 = some (col.map ratTrunc) ∧
      ((∀ q ∈ col, q = 0 ∨ q = 1) →
        ∀ v ∈ col.map ratTrunc, v = 0 ∨ v = 1)) ∧
    (∀ col, raw.is_weekend = some col →
      (normalizeFlags raw).2 = some (col.map ratTrunc) ∧
      ((∀ q ∈ col, q = 0 ∨ q = 1) →
        ∀ v ∈ col.map ratTrunc, v = 0 ∨ v = 1)) := by
  have hval : ∀ col : List ℚ, (∀ q ∈ col, q = 0 ∨ q = 1) →
      ∀ v ∈ col.map ratTrunc, v = 0 ∨ v = 1 := by
    intro col hvals v hv
    obtain ⟨q, hq, rfl⟩ := List.mem_map.mp hv
    rcases hvals q hq with h0 | h1
    · left
      rw [h0]
      decide
    · right
      rw [h1]
      decide
  refine ⟨?_, ?_, ?_, ?_⟩
  · intro h
    show coerceFlagColumn raw.is_business_hours = none
    rw [h]
    rfl
  · intro h
    show coerceFlagColumn raw.is_weekend = none
    rw [h]
    rfl
  · intro col hcol
    constructor
    · show coerceFlagColumn raw.is_business_hours = some (col.map ratTrunc)
      rw [hcol]
      rfl
    · exact hval col
  · intro col hcol
    constructor
    · show coerceFlagColumn raw.is_weekend = some (col.map ratTrunc)
      rw [hcol]
      rfl
    · exact hval col

/-- C9 witness: a raw table with a present 0/1 business-hours column and an
absent weekend column is coerced on the one and skipped on the other. -/
theorem flag_coercion_amended_witness :
    demoRaw.is_business_hours = some [(1 : ℚ), 0] ∧
    (normalizeFlags demoRaw).1 = some ([(1 : ℚ), 0].map ratTrunc) ∧
    (normalizeFlags demoRaw).2 = none :=
  ⟨rfl, ((flag_coercion_amended demoRaw).2.2.1 [1, 0] rfl).1,
    (flag_coercion_amended demoRaw).2.1 rfl⟩
